import Mathlib

/-!
# Verification of the structured fault taxonomy and ordered recovery dispatcher
(`Chp11-Ex6.cpp`: `Person`/`Student` hierarchy, `Graduate` validator,
`try`/`catch` dispatcher, `set_terminate` hook).

Shallow embedding conventions:
* C++ `float`/`double` values are modelled as exact rationals (`ℚ`); the
  program performs no floating-point arithmetic on them — the GPA is only
  compared against the literal `2.0` and passed through as a thrown payload.
* C++ `int` is modelled as `ℤ` (no overflow occurs in the modelled scenarios).
* A member function that can `throw` returns `Except Fault α`; the thrown
  value's static C++ type is recorded as a `Fault` constructor, which is what
  the `catch` clause matching inspects at run time.
* The static counter `Student::numStudents` is threaded explicitly: each
  constructor takes the current counter value and returns the updated one.
-/

/-- Model of C++ `std::to_string` on integers: decimal digits, least
significant first, computed with explicit fuel (structural recursion). -/
def digitsRev : Nat → Nat → List Nat
  | 0, _ => []
  | fuel + 1, n => if n = 0 then [] else n % 10 :: digitsRev fuel (n / 10)

/-- Value of a least-significant-first digit list (used only in proofs, to
show `digitsRev` loses no information). -/
def fromDigitsRev : List Nat → Nat
  | [] => 0
  | d :: ds => d + 10 * fromDigitsRev ds

/-- Model of C++ `std::to_string` on a nonnegative value. -/
def natToString (n : Nat) : String :=
  if n = 0 then "0" else String.mk (((digitsRev n n).map Nat.digitChar).reverse)

/-- Model of C++ `std::to_string(int)`. -/
def intToString : Int → String
  | .ofNat m => natToString m
  | .negSucc m => "-" ++ natToString (m + 1)

/-- `Person` (Chp11-Ex6.cpp): identity fields; `middleInitial` has in-class
initialization `'\0'`, the `string` members default-construct empty. -/
structure Person where
  firstName : String := ""
  lastName : String := ""
  middleInitial : Char := '\x00'
  title : String := ""
  deriving Repr, DecidableEq

def Person.GetFirstName (p : Person) : String := p.firstName

def Person.GetLastName (p : Person) : String := p.lastName

def Person.GetTitle (p : Person) : String := p.title

def Person.GetMiddleInitial (p : Person) : Char := p.middleInitial

/-- `Person::ModifyTitle` (protected mutator). -/
def Person.ModifyTitle (p : Person) (newTitle : String) : Person :=
  { p with title := newTitle }

/-- Nested class `Student::StudentException`: wraps an `int`, no default
constructor, read accessor `GetNum`. -/
structure StudentException where
  number : Int
  deriving Repr, DecidableEq

def StudentException.GetNum (e : StudentException) : Int := e.number

/-- `Student` (extends `Person`): `gpa` has in-class initialization `0.0`,
`currentCourse` default-constructs empty, `studentId` is `const`. -/
structure Student extends Person where
  gpa : ℚ := 0
  currentCourse : String := ""
  studentId : String
  deriving Repr, DecidableEq

def Student.GetGpa (s : Student) : ℚ := s.gpa

def Student.GetCurrentCourse (s : Student) : String := s.currentCourse

def Student.GetStudentId (s : Student) : String := s.studentId

def Student.SetCurrentCourse (s : Student) (c : String) : Student :=
  { s with currentCourse := c }

/-- `Student::EarnPhD`: calls the protected `ModifyTitle("Dr.")`. -/
def Student.EarnPhD (s : Student) : Student :=
  { s with toPerson := s.toPerson.ModifyTitle "Dr." }

/-- Default constructor `Student::Student()`: `studentId` is set in the member
init list to `to_string(numStudents + 100) + "Id"` — the counter is read
BEFORE the body's `numStudents++`. -/
def Student.mkDefault (numStudents : Int) : Student × Int :=
  ({ toPerson := {}, studentId := intToString (numStudents + 100) ++ "Id" },
   numStudents + 1)

/-- Alternate constructor `Student::Student(fn, ln, mi, t, avg, course, id)`;
body runs `numStudents++`. -/
def Student.mkParam (fn ln : String) (mi : Char) (t : String) (avg : ℚ)
    (course id : String) (numStudents : Int) : Student × Int :=
  ({ toPerson := { firstName := fn, lastName := ln, middleInitial := mi, title := t },
     gpa := avg, currentCourse := course, studentId := id },
   numStudents + 1)

/-- Copy constructor `Student::Student(const Student &s)`: copies the `Person`
base and every derived member (`gpa`, `currentCourse`, `studentId`), then runs
`numStudents++`. -/
def Student.mkCopy (s : Student) (numStudents : Int) : Student × Int :=
  ({ toPerson := s.toPerson, gpa := s.gpa, currentCourse := s.currentCourse,
     studentId := s.studentId },
   numStudents + 1)

/-- Destructor `Student::~Student()`: body runs `numStudents--`. -/
def Student.destruct (numStudents : Int) : Int := numStudents - 1

/-- The fault taxonomy: each constructor is one static C++ type that the
program throws or catches (`float`, `int`, `const char *`,
`Student::StudentException`), plus `otherFault` standing for any other
thrown type (matched only by `catch (...)`). -/
inductive Fault where
  | floatVal (x : ℚ)
  | intVal (n : Int)
  | charPtr (msg : String)
  | studentEx (e : StudentException)
  | otherFault
  deriving Repr, DecidableEq

/-- `Student::Validate`: unconditionally `throw "Student does not meet
prerequisites"` (a `const char *`). -/
def Student.Validate (_ : Student) : Except Fault Unit :=
  .error (.charPtr "Student does not meet prerequisites")

/-- `Student::TakePrerequisites`: body is `return false`; it throws nothing
and touches neither the object nor the static counter (both are returned
unchanged to make that observable). -/
def Student.TakePrerequisites (s : Student) (numStudents : Int) :
    Except Fault (Bool × Student × Int) :=
  .ok (false, s, numStudents)

/-- `Student::Graduate`: `if (gpa < 2.0) throw gpa;` then (the intermediate
branches being comments) `throw *(new StudentException(5));`. -/
def Student.Graduate (s : Student) : Except Fault Unit :=
  if s.gpa < 2 then .error (.floatVal s.gpa)
  else .error (.studentEx ⟨5⟩)

/-- The catch clauses of `main`, one constructor per `catch` parameter type,
in no particular order (the declared order at the call site is a `List`). -/
inductive Clause where
  | catchFloat
  | catchInt
  | catchCharPtr
  | catchStudentEx
  | catchAll
  deriving Repr, DecidableEq

/-- Whether a clause's declared type accepts a thrown value's run-time type:
exact type identity for the four specific clauses, anything for `catch (...)`. -/
def Clause.accepts : Clause → Fault → Bool
  | .catchFloat, .floatVal _ => true
  | .catchFloat, _ => false
  | .catchInt, .intVal _ => true
  | .catchInt, _ => false
  | .catchCharPtr, .charPtr _ => true
  | .catchCharPtr, _ => false
  | .catchStudentEx, .studentEx _ => true
  | .catchStudentEx, _ => false
  | .catchAll, _ => true

/-- The `exit(k)` each handler body of `main` executes on a match. -/
def Clause.exitCode : Clause → Int
  | .catchFloat => 1
  | .catchInt => 2
  | .catchCharPtr => 4
  | .catchStudentEx => 5
  | .catchAll => 6

/-- The clauses of `main`'s try block, in declared source order. -/
def mainClauses : List Clause :=
  [.catchFloat, .catchInt, .catchCharPtr, .catchStudentEx, .catchAll]

/-- C++ first-match-wins resolution: the first clause, in declared order,
whose type accepts the thrown value's run-time type. -/
def dispatch (clauses : List Clause) (f : Fault) : Option Clause :=
  clauses.find? (fun c => c.accepts f)

/-- `AppSpecificTerminate` (installed via `set_terminate`): prints a
diagnostic and calls `exit(1)`; this is its exit status. -/
def AppSpecificTerminate : Int := 1

/-- Process exit status of handling fault `f` against a clause list: the
matched handler's `exit` code, or the terminate hook's status when no clause
anywhere matches. -/
def runDispatch (clauses : List Clause) (f : Fault) : Int :=
  match dispatch clauses f with
  | some c => c.exitCode
  | none => AppSpecificTerminate

/-- `main`: registers the hook, constructs
`Student s1("Ling","Mau",'I',"Ms.",3.1,"C++","55UD")` (counter starts at 0),
calls `s1.Graduate()` inside the try block; a thrown fault is dispatched,
a normal return would reach `return 0`. -/
def mainProgram : Int :=
  let init := Student.mkParam "Ling" "Mau" 'I' "Ms." (31 / 10 : ℚ) "C++" "55UD" 0
  match init.1.Graduate with
  | .error f => runDispatch mainClauses f
  | .ok _ => 0

/-- Lifecycle events of `Student` objects, used to state the population
counter invariants: the three constructors (with their arguments) and the
destructor. -/
inductive StudentEvent where
  | conDefault
  | conParam (fn ln : String) (mi : Char) (t : String) (avg : ℚ) (course id : String)
  | conCopy (s : Student)
  | destroy

/-- The effect of one lifecycle event on `numStudents`, read off from the
constructors' and destructor's own definitions. -/
def counterStep (numStudents : Int) : StudentEvent → Int
  | .conDefault => (Student.mkDefault numStudents).2
  | .conParam fn ln mi t avg course id =>
      (Student.mkParam fn ln mi t avg course id numStudents).2
  | .conCopy s => (Student.mkCopy s numStudents).2
  | .destroy => Student.destruct numStudents

/-- Run a sequence of lifecycle events from a starting counter value. -/
def runCounter (numStudents : Int) : List StudentEvent → Int
  | [] => numStudents
  | e :: es => runCounter (counterStep numStudents e) es

def StudentEvent.isConstruction : StudentEvent → Bool
  | .destroy => false
  | _ => true

/-- Number of constructions in an event list. -/
def constructions (es : List StudentEvent) : Int :=
  (es.filter (·.isConstruction)).length

/-- Number of destructions in an event list. -/
def destructions (es : List StudentEvent) : Int :=
  (es.filter (fun e => !e.isConstruction)).length

theorem fromDigitsRev_digitsRev (fuel : Nat) :
    ∀ n : Nat, n ≤ fuel → fromDigitsRev (digitsRev fuel n) = n := by
  induction fuel with
  | zero => intro n h; interval_cases n; simp [digitsRev, fromDigitsRev]
  | succ fuel ih =>
    intro n h
    by_cases hn : n = 0
    · simp [digitsRev, hn, fromDigitsRev]
    · rw [digitsRev, if_neg hn, fromDigitsRev, ih (n / 10) (by omega)]
      omega

theorem digitsRev_lt (fuel : Nat) :
    ∀ n d : Nat, d ∈ digitsRev fuel n → d < 10 := by
  induction fuel with
  | zero => intro n d hd; simp [digitsRev] at hd
  | succ fuel ih =>
    intro n d hd
    by_cases hn : n = 0
    · simp [digitsRev, hn] at hd
    · rw [digitsRev, if_neg hn] at hd
      rcases List.mem_cons.mp hd with h | h
      · omega
      · exact ih _ _ h

theorem digitChar_inj :
    ∀ a : Nat, a < 10 → ∀ b : Nat, b < 10 →
      Nat.digitChar a = Nat.digitChar b → a = b := by decide

theorem digitChar_ne_dash : ∀ d : Nat, d < 10 → Nat.digitChar d ≠ '-' := by decide

theorem map_digitChar_inj :
    ∀ l1 l2 : List Nat, (∀ d ∈ l1, d < 10) → (∀ d ∈ l2, d < 10) →
      l1.map Nat.digitChar = l2.map Nat.digitChar → l1 = l2 := by
  intro l1
  induction l1 with
  | nil => intro l2 _ _ h; cases l2 <;> simp_all
  | cons a l1 ih =>
    intro l2 h1 h2 h
    cases l2 with
    | nil => simp at h
    | cons b l2 =>
      simp only [List.map_cons, List.cons.injEq] at h
      have ha : a = b := digitChar_inj a (h1 a (by simp)) b (h2 b (by simp)) h.1
      have : l1 = l2 := ih l2 (fun d hd => h1 d (by simp [hd])) (fun d hd => h2 d (by simp [hd])) h.2
      simp [ha, this]

theorem natToString_chars (n : Nat) :
    ∀ c ∈ (natToString n).data, ∃ d : Nat, d < 10 ∧ c = Nat.digitChar d := by
  intro c hc
  by_cases hn : n = 0
  · simp [natToString, hn] at hc
    exact ⟨0, by omega, by simp [hc]; rfl⟩
  · simp only [natToString, if_neg hn] at hc
    rw [List.mem_reverse, List.mem_map] at hc
    obtain ⟨d, hd, rfl⟩ := hc
    exact ⟨d, digitsRev_lt n n d hd, rfl⟩

theorem natToString_inj :
    ∀ m n : Nat, natToString m = natToString n → m = n := by
  have key : ∀ n : Nat, n ≠ 0 → natToString n ≠ "0" := by
    intro n hn h
    simp only [natToString, if_neg hn] at h
    have hdata : ((digitsRev n n).map Nat.digitChar).reverse = ['0'] :=
      congrArg String.data h
    have hmap : (digitsRev n n).map Nat.digitChar = ['0'] := by
      have := congrArg List.reverse hdata
      simpa using this
    have hdig : digitsRev n n = [0] := by
      apply map_digitChar_inj _ [0] (fun d hd => digitsRev_lt n n d hd)
        (by intro d hd; simp at hd; omega)
      simpa using hmap
    have := fromDigitsRev_digitsRev n n le_rfl
    rw [hdig] at this
    simp [fromDigitsRev] at this
    omega
  intro m n h
  by_cases hm : m = 0 <;> by_cases hn : n = 0
  · omega
  · exact absurd h.symm (by simpa [natToString, hm] using key n hn)
  · exact absurd h (by simpa [natToString, hn] using key m hm)
  · simp only [natToString, if_neg hm, if_neg hn] at h
    have hdata := congrArg String.data h
    have hmap : (digitsRev m m).map Nat.digitChar = (digitsRev n n).map Nat.digitChar := by
      have := congrArg List.reverse hdata
      simpa using this
    have hdig := map_digitChar_inj _ _ (fun d hd => digitsRev_lt m m d hd)
      (fun d hd => digitsRev_lt n n d hd) hmap
    have h1 := fromDigitsRev_digitsRev m m le_rfl
    have h2 := fromDigitsRev_digitsRev n n le_rfl
    rw [hdig, h2] at h1
    omega

theorem intToString_inj :
    ∀ m n : Int, intToString m = intToString n → m = n := by
  have nodash : ∀ k : Nat, ∀ t : List Char, (natToString k).data ≠ '-' :: t := by
    intro k t h
    have : '-' ∈ (natToString k).data := by rw [h]; simp
    obtain ⟨d, hd, hc⟩ := natToString_chars k '-' this
    exact digitChar_ne_dash d hd hc.symm
  intro m n h
  cases m with
  | ofNat a =>
    cases n with
    | ofNat b => simpa using natToString_inj a b h
    | negSucc b =>
      exfalso
      have := congrArg String.data h
      simp only [intToString] at this
      rw [String.data_append] at this
      exact nodash a _ (by simpa using this)
  | negSucc a =>
    cases n with
    | ofNat b =>
      exfalso
      have := congrArg String.data h
      simp only [intToString] at this
      rw [String.data_append] at this
      exact nodash b _ (by simpa using this.symm)
    | negSucc b =>
      simp only [intToString] at h
      have := congrArg String.data h
      rw [String.data_append, String.data_append] at this
      have hd : (natToString (a + 1)).data = (natToString (b + 1)).data :=
        List.append_cancel_left this
      have hab : a = b := by
        have := natToString_inj (a + 1) (b + 1) (String.ext hd)
        omega
      rw [hab]

/-- Sequencing operations of the `Student` public (and protected) mutating
interface, used to state that none of them touches `studentId`. -/
inductive StudentOp where
  | setCourse (c : String)
  | earnPhD
  | modifyTitle (t : String)

def StudentOp.apply (s : Student) : StudentOp → Student
  | .setCourse c => s.SetCurrentCourse c
  | .earnPhD => s.EarnPhD
  | .modifyTitle t => { s with toPerson := s.toPerson.ModifyTitle t }

theorem runCounter_eq (es : List StudentEvent) :
    ∀ n : Int, runCounter n es = n + constructions es - destructions es := by
  induction es with
  | nil => intro n; simp [runCounter, constructions, destructions]
  | cons e es ih =>
    intro n
    rw [runCounter, ih]
    cases e <;>
      simp [counterStep, Student.mkDefault, Student.mkParam, Student.mkCopy,
        Student.destruct, constructions, destructions, List.filter,
        StudentEvent.isConstruction] <;>
      omega

/-- `true` exactly when a call outcome is a signaled diagnostic-message fault
(a thrown `const char *`). -/
def signalsDiagnostic {α : Type} : Except Fault α → Bool
  | .error (.charPtr _) => true
  | _ => false

/-- C1: for every Student with GPA strictly below 2.0, `Graduate` signals the
float-typed fault whose payload is exactly that Student's GPA, this rule being
checked before the unconditional structured-fault throw. -/
theorem graduate_low_gpa_signals_gpa (s : Student) (h : s.gpa < 2) :
    s.Graduate = .error (.floatVal s.gpa) := by
  simp [Student.Graduate, h]

/-- Witness for C1 at a concrete Student with GPA 1. -/
theorem graduate_low_gpa_signals_gpa_witness :
    (⟨{}, 1, "", "55UD"⟩ : Student).gpa < 2
      ∧ (⟨{}, 1, "", "55UD"⟩ : Student).Graduate = .error (.floatVal 1) :=
  ⟨by decide, graduate_low_gpa_signals_gpa ⟨{}, 1, "", "55UD"⟩ (by decide)⟩

/-- C2: for every Student with GPA ≥ 2.0, `Graduate` signals `StudentException`
carrying code 5; and `Graduate` never returns normally on any input. -/
theorem graduate_no_success_path :
    (∀ s : Student, 2 ≤ s.gpa → s.Graduate = .error (.studentEx ⟨5⟩))
    ∧ (∀ s : Student, ∃ f : Fault, s.Graduate = .error f) := by
  constructor
  · intro s h
    simp [Student.Graduate, not_lt.mpr h]
  · intro s
    by_cases h : s.gpa < 2
    · exact ⟨.floatVal s.gpa, by simp [Student.Graduate, h]⟩
    · exact ⟨.studentEx ⟨5⟩, by simp [Student.Graduate, h]⟩

/-- Witness for C2 at a concrete Student with GPA 3. -/
theorem graduate_no_success_path_witness :
    2 ≤ (⟨{}, 3, "", "55UD"⟩ : Student).gpa
      ∧ (⟨{}, 3, "", "55UD"⟩ : Student).Graduate = .error (.studentEx ⟨5⟩) :=
  ⟨by decide, graduate_no_success_path.1 ⟨{}, 3, "", "55UD"⟩ (by decide)⟩

/-- C3: the process exit status is determined by the handled fault kind:
1 for the float (low-GPA) clause, 2 for the int (credit-deficit) clause,
4 for the `const char *` (diagnostic) clause, 5 for the `StudentException`
(structured) clause, 6 for `catch (...)`, and the terminate hook exits
with 1 when no clause anywhere matches. -/
theorem exit_codes_by_fault_kind :
    (∀ x : ℚ, runDispatch mainClauses (.floatVal x) = 1)
    ∧ (∀ n : Int, runDispatch mainClauses (.intVal n) = 2)
    ∧ (∀ msg : String, runDispatch mainClauses (.charPtr msg) = 4)
    ∧ (∀ e : StudentException, runDispatch mainClauses (.studentEx e) = 5)
    ∧ runDispatch mainClauses .otherFault = 6
    ∧ (∀ f : Fault, runDispatch [] f = AppSpecificTerminate)
    ∧ AppSpecificTerminate = 1 :=
  ⟨fun _ => rfl, fun _ => rfl, fun _ => rfl, fun _ => rfl, rfl, fun _ => rfl, rfl⟩

/-- C4: under the declared clause order of `main`, a `StudentException`-kind
fault is matched by the fourth clause (index 3), which is precisely the
`StudentException` clause — no earlier clause accepts it, and first-match-wins
means no later clause is reached — for every payload code value. -/
theorem structured_fault_matches_only_its_clause (n : Int) :
    mainClauses.findIdx? (fun c => c.accepts (.studentEx ⟨n⟩)) = some 3
    ∧ mainClauses[3]? = some .catchStudentEx
    ∧ (∀ c ∈ mainClauses.take 3, c.accepts (.studentEx ⟨n⟩) = false)
    ∧ dispatch mainClauses (.studentEx ⟨n⟩) = some .catchStudentEx :=
  ⟨rfl, rfl, by intro c hc; fin_cases hc <;> rfl, rfl⟩

/-- C5: each of the three constructors increments the population counter by
exactly one and the destructor decrements it by exactly one; over any event
sequence the counter equals its start plus live instances (constructions minus
destructions); it never drops below 0 from the initial 0 when no prefix
destroys more than was constructed; and any balanced sequence (equally many
constructions and destructions, in any order) restores the initial value. -/
theorem population_counter_invariants :
    (∀ n : Int, (Student.mkDefault n).2 = n + 1)
    ∧ (∀ fn ln mi t avg course id n,
        (Student.mkParam fn ln mi t avg course id n).2 = n + 1)
    ∧ (∀ (s : Student) (n : Int), (Student.mkCopy s n).2 = n + 1)
    ∧ (∀ n : Int, Student.destruct n = n - 1)
    ∧ (∀ (es : List StudentEvent) (n : Int),
        runCounter n es = n + constructions es - destructions es)
    ∧ (∀ es : List StudentEvent,
        (∀ k, k ≤ es.length →
          destructions (es.take k) ≤ constructions (es.take k)) →
        0 ≤ runCounter 0 es)
    ∧ (∀ (es : List StudentEvent) (n : Int),
        constructions es = destructions es → runCounter n es = n) := by
  refine ⟨fun _ => rfl, fun _ _ _ _ _ _ _ _ => rfl, fun _ _ => rfl, fun _ => rfl,
    fun es n => runCounter_eq es n, ?_, ?_⟩
  · intro es h
    have := h es.length le_rfl
    rw [List.take_length] at this
    rw [runCounter_eq]
    omega
  · intro es n h
    rw [runCounter_eq, h]
    omega

/-- Witness for C5 on the concrete balanced event sequence
default-construct, copy-construct, destroy, destroy. -/
theorem population_counter_invariants_witness :
    0 ≤ runCounter 0
        [.conDefault, .conCopy ⟨{}, 0, "", "55UD"⟩, .destroy, .destroy]
    ∧ runCounter 7
        [.conDefault, .conCopy ⟨{}, 0, "", "55UD"⟩, .destroy, .destroy] = 7 :=
  ⟨population_counter_invariants.2.2.2.2.2.1
      [.conDefault, .conCopy ⟨{}, 0, "", "55UD"⟩, .destroy, .destroy]
      (by decide),
   population_counter_invariants.2.2.2.2.2.2
      [.conDefault, .conCopy ⟨{}, 0, "", "55UD"⟩, .destroy, .destroy]
      7 (by decide)⟩

/-- C6: `GetStudentId` reads the `const` identifier, and no sequence of the
mutating operations of the `Student` interface (`SetCurrentCourse`, `EarnPhD`,
`ModifyTitle`) changes it: after construction it is identical forever. -/
theorem studentId_immutable :
    ∀ (ops : List StudentOp) (s : Student),
      (ops.foldl StudentOp.apply s).GetStudentId = s.GetStudentId := by
  intro ops
  induction ops with
  | nil => intro s; rfl
  | cons op ops ih =>
    intro s
    rw [List.foldl_cons, ih]
    cases op <;> rfl

/-- C7: the default constructor derives the identifier from the counter value
read before its own increment, as `to_string(numStudents + 100) + "Id"`, and
two default constructions at different counter values yield different
identifiers. -/
theorem default_ctor_studentId_derivation :
    (∀ n : Int,
      (Student.mkDefault n).1.GetStudentId = intToString (n + 100) ++ "Id"
        ∧ (Student.mkDefault n).2 = n + 1)
    ∧ (∀ m n : Int, m ≠ n →
        (Student.mkDefault m).1.GetStudentId ≠ (Student.mkDefault n).1.GetStudentId) := by
  refine ⟨fun n => ⟨rfl, rfl⟩, fun m n hmn h => ?_⟩
  apply hmn
  have hdata := congrArg String.data h
  simp only [Student.mkDefault, Student.GetStudentId, String.data_append] at hdata
  have := intToString_inj (m + 100) (n + 100)
    (String.ext (List.append_cancel_right hdata))
  omega

/-- Witness for C7 at counter values 0 and 1. -/
theorem default_ctor_studentId_derivation_witness :
    (0 : Int) ≠ 1
    ∧ (Student.mkDefault 0).1.GetStudentId ≠ (Student.mkDefault 1).1.GetStudentId :=
  ⟨by decide, default_ctor_studentId_derivation.2 0 1 (by decide)⟩

/-- C8: `TakePrerequisites` returns `false` for every Student in every state,
signals no fault, and leaves the Student and the population counter unchanged. -/
theorem takePrerequisites_pure_false :
    ∀ (s : Student) (n : Int), s.TakePrerequisites n = .ok (false, s, n) :=
  fun _ _ => rfl

/-- C9: a copy-constructed Student is field-for-field equal to its source —
in particular its identifier is string-equal, not freshly generated — while
the population counter is still incremented by one. -/
theorem copy_ctor_copies_studentId :
    ∀ (s : Student) (n : Int),
      (Student.mkCopy s n).1.GetStudentId = s.GetStudentId
      ∧ (Student.mkCopy s n).1 = s
      ∧ (Student.mkCopy s n).2 = n + 1 :=
  fun _ _ => ⟨rfl, rfl, rfl⟩

/-- C10: `Validate` unconditionally signals the diagnostic-message
(`const char *`) fault with exactly "Student does not meet prerequisites" and
never returns normally; and neither `Graduate` nor `TakePrerequisites` ever
signals that fault kind. -/
theorem validate_signals_diagnostic_only :
    (∀ s : Student,
      s.Validate = .error (.charPtr "Student does not meet prerequisites"))
    ∧ (∀ s : Student, signalsDiagnostic s.Graduate = false)
    ∧ (∀ (s : Student) (n : Int), signalsDiagnostic (s.TakePrerequisites n) = false) := by
  refine ⟨fun _ => rfl, ?_, fun _ _ => rfl⟩
  intro s
  by_cases h : s.gpa < 2 <;> simp [Student.Graduate, h, signalsDiagnostic]

/-- Witness for C4: at payload code 42, the first clause really rejects the
`StudentException`-kind fault. -/
theorem structured_fault_matches_only_its_clause_witness :
    Clause.catchFloat ∈ mainClauses.take 3
    ∧ Clause.catchFloat.accepts (.studentEx ⟨42⟩) = false :=
  ⟨by decide,
   (structured_fault_matches_only_its_clause 42).2.2.1 .catchFloat (by decide)⟩
